import Mathlib

/-!
Shallow embedding of the head-tracked "window illusion" renderer.

The repository contains near-duplicate variants of the same pipeline:
* `src/unnamed/part_001` (laptop "box" demo, similar-triangles off-axis
  frustum, mirrored x axis, recency-weighted smoothing) — embedded in
  namespace `Window.Box`;
* `src/perspective-corridor.js` and `src/unnamed/part_000` (large-screen
  corridor demo, damped screen-offset frustum, interlaced stereo render
  loop) — embedded in namespace `Window.Corridor`.

JavaScript numbers are modelled as exact rationals (`ℚ`); all definitions
are computable so concrete runs can be checked by `decide`.
-/

namespace Window

/-- One entry of the mutable `positionHistory` array: a raw head-position
observation in cm with its `Date.now()` millisecond timestamp. -/
structure Sample where
  x : ℚ
  y : ℚ
  z : ℚ
  timestamp : ℚ
deriving DecidableEq

/-- The mutable `headPosition` object `{x, y, z}` (cm). -/
structure Vec3 where
  x : ℚ
  y : ℚ
  z : ℚ
deriving DecidableEq

/-- A homogeneous coordinate vector, as consumed by the vertex shader. -/
structure Vec4 where
  x : ℚ
  y : ℚ
  z : ℚ
  w : ℚ
deriving DecidableEq

/-- A 4×4 matrix stored like the JS `Float32Array(16)`: column-major, so
`m12, m13, m14` are the translation column and `m0, m5, m10, m15` the
diagonal. -/
structure Mat4 where
  m0 : ℚ
  m1 : ℚ
  m2 : ℚ
  m3 : ℚ
  m4 : ℚ
  m5 : ℚ
  m6 : ℚ
  m7 : ℚ
  m8 : ℚ
  m9 : ℚ
  m10 : ℚ
  m11 : ℚ
  m12 : ℚ
  m13 : ℚ
  m14 : ℚ
  m15 : ℚ
deriving DecidableEq

/-- `mat4 * vec4` with the WebGL column-major convention — the semantics of
`gl_Position = mvpMatrix * vec4(position, 1.0)` in the vertex shader. -/
def applyMat4 (m : Mat4) (v : Vec4) : Vec4 :=
  ⟨m.m0 * v.x + m.m4 * v.y + m.m8 * v.z + m.m12 * v.w,
   m.m1 * v.x + m.m5 * v.y + m.m9 * v.z + m.m13 * v.w,
   m.m2 * v.x + m.m6 * v.y + m.m10 * v.z + m.m14 * v.w,
   m.m3 * v.x + m.m7 * v.y + m.m11 * v.z + m.m15 * v.w⟩

/-- The `{left, right, bottom, top, near, far}` bounds fed to
`createPerspectiveMatrix`. -/
structure Frustum where
  left : ℚ
  right : ℚ
  bottom : ℚ
  top : ℚ
  near : ℚ
  far : ℚ
deriving DecidableEq

/-- `const SMOOTHING_WINDOW_MS = 200` (identical in every variant). -/
def SMOOTHING_WINDOW_MS : ℚ := 200

/-- `const EYE_SEPARATION = 6.5` — average human IPD in cm. -/
def EYE_SEPARATION : ℚ := 13 / 2

/-- `const newDistance = (baselineFaceWidth / faceWidth) * calibratedDistance`
— the depth estimate shared verbatim by every `updateHeadPosition` variant. -/
def estimateZ (baselineFaceWidth faceWidth calibratedDistance : ℚ) : ℚ :=
  baselineFaceWidth / faceWidth * calibratedDistance

/-- The per-sample smoothing weight computed inside the history loop:
`weight = 1 - (age / SMOOTHING_WINDOW_MS)` with
`age = currentTime - pos.timestamp`. -/
def sampleWeight (currentTime : ℚ) (p : Sample) : ℚ :=
  1 - (currentTime - p.timestamp) / SMOOTHING_WINDOW_MS

/-- The eviction loop
`while (positionHistory.length > 0 && positionHistory[0].timestamp < cutoffTime)
  positionHistory.shift();` — repeated removal from the front is exactly
`dropWhile` on the predicate. -/
def evictOld (history : List Sample) (cutoffTime : ℚ) : List Sample :=
  history.dropWhile (fun p => decide (p.timestamp < cutoffTime))

/-- `totalWeight` accumulated by the smoothing loop over a history list. -/
def totalWeightOf (history : List Sample) (currentTime : ℚ) : ℚ :=
  (history.map (sampleWeight currentTime)).sum

/-- The accumulated `smoothedX`/`smoothedY`/`smoothedZ` sums
(`smoothed += pos.c * weight`), parameterized by the coordinate read. -/
def weightedSumOf (f : Sample → ℚ) (history : List Sample) (currentTime : ℚ) : ℚ :=
  (history.map (fun p => f p * sampleWeight currentTime p)).sum

/-- The spec's wording of the recency weight:
`weight = max(0, 1 - age/WINDOW_MS)`.  Named separately so the code's
unclamped loop weight can be compared against it. -/
def specRecencyWeight (currentTime : ℚ) (p : Sample) : ℚ :=
  max 0 (1 - (currentTime - p.timestamp) / SMOOTHING_WINDOW_MS)

/-- The free-standing mutable tracking state shared by the estimator and
filter: `baselineFaceWidth` (`0` models the JS falsy `null`/`0` "not yet
calibrated" value tested by `if (!baselineFaceWidth)`), `calibratedDistance`,
`positionHistory`, and `headPosition`. -/
structure TrackingState where
  baselineFaceWidth : ℚ
  calibratedDistance : ℚ
  positionHistory : List Sample
  headPosition : Vec3
deriving DecidableEq

namespace Box

/-- `const SCREEN_WIDTH_CM = 30.9` (part_001 / glb-demo geometry). -/
def SCREEN_WIDTH_CM : ℚ := 309 / 10

/-- `const SCREEN_HEIGHT_CM = 17.4`. -/
def SCREEN_HEIGHT_CM : ℚ := 87 / 5

/-- `const CAMERA_OFFSET_X = 0`. -/
def CAMERA_OFFSET_X : ℚ := 0

/-- `const CAMERA_OFFSET_Y = 8.7` — camera at the top of the screen. -/
def CAMERA_OFFSET_Y : ℚ := 87 / 10

/-- `createPerspectiveMatrix(left, right, bottom, top, near, far)` —
the general asymmetric-frustum projection matrix, column-major exactly as
the JS fills the `Float32Array`. -/
def createPerspectiveMatrix (left right bottom top near far : ℚ) : Mat4 where
  m0 := 2 * near / (right - left)
  m1 := 0
  m2 := 0
  m3 := 0
  m4 := 0
  m5 := 2 * near / (top - bottom)
  m6 := 0
  m7 := 0
  m8 := (right + left) / (right - left)
  m9 := (top + bottom) / (top - bottom)
  m10 := -(far + near) / (far - near)
  m11 := -1
  m12 := 0
  m13 := 0
  m14 := -(2 * far * near) / (far - near)
  m15 := 0

/-- The frustum bounds computed inside `createPerspectiveCorrectedMatrix`
(part_001): `near = 0.1`, `far = 200`, and the similar-triangles division by
the raw `headZ`, with no clamp on `headZ`. -/
def frustumBounds (headX headY headZ : ℚ) : Frustum :=
  let near : ℚ := 1 / 10
  let far : ℚ := 200
  let halfWidth := SCREEN_WIDTH_CM / 2
  let halfHeight := SCREEN_HEIGHT_CM / 2
  { left := near * (-halfWidth - headX) / headZ
    right := near * (halfWidth - headX) / headZ
    bottom := near * (-halfHeight - headY) / headZ
    top := near * (halfHeight - headY) / headZ
    near := near
    far := far }

/-- `createPerspectiveCorrectedMatrix(headX, headY, headZ)` (part_001):
builds the off-axis projection from the similar-triangles bounds. -/
def createPerspectiveCorrectedMatrix (headX headY headZ : ℚ) : Mat4 :=
  let f := frustumBounds headX headY headZ
  createPerspectiveMatrix f.left f.right f.bottom f.top f.near f.far

/-- The view matrix built inline in `renderEye` (part_001): pure translation
by the negated eye position, `[1,0,0,0, 0,1,0,0, 0,0,1,0, -ex,-ey,-ez,1]`. -/
def renderEyeViewMatrix (eyeX eyeY eyeZ : ℚ) : Mat4 where
  m0 := 1
  m1 := 0
  m2 := 0
  m3 := 0
  m4 := 0
  m5 := 1
  m6 := 0
  m7 := 0
  m8 := 0
  m9 := 0
  m10 := 1
  m11 := 0
  m12 := -eyeX
  m13 := -eyeY
  m14 := -eyeZ
  m15 := 1

/-- Projecting a world-space point through the built view matrix and then the
built projection matrix (the standard column-major `mat4 * vec4` semantics),
before the perspective divide. -/
def projectPoint (eyeX eyeY eyeZ px py pz : ℚ) : Vec4 :=
  applyMat4 (createPerspectiveCorrectedMatrix eyeX eyeY eyeZ)
    (applyMat4 (renderEyeViewMatrix eyeX eyeY eyeZ) ⟨px, py, pz, 1⟩)

/-- `const rawX = -(horizontalPixelOffset / videoWidth) * SCREEN_WIDTH_CM + CAMERA_OFFSET_X`
with `horizontalPixelOffset = faceX - videoWidth / 2` (mirrored x axis). -/
def rawXOf (faceX videoWidth : ℚ) : ℚ :=
  -((faceX - videoWidth / 2) / videoWidth) * SCREEN_WIDTH_CM + CAMERA_OFFSET_X

/-- `const rawY = -(verticalPixelOffset / videoHeight) * SCREEN_HEIGHT_CM + CAMERA_OFFSET_Y`. -/
def rawYOf (faceY videoHeight : ℚ) : ℚ :=
  -((faceY - videoHeight / 2) / videoHeight) * SCREEN_HEIGHT_CM + CAMERA_OFFSET_Y

/-- The auto-calibration step `if (!baselineFaceWidth) baselineFaceWidth = faceWidth`. -/
def autoCalibratedBaseline (baselineFaceWidth faceWidth : ℚ) : ℚ :=
  if baselineFaceWidth = 0 then faceWidth else baselineFaceWidth

/-- The raw sample pushed by `positionHistory.push({x: rawX, y: rawY,
z: newDistance, timestamp: currentTime})`. -/
def newSample (st : TrackingState) (faceX faceY faceWidth videoWidth videoHeight currentTime : ℚ) :
    Sample :=
  ⟨rawXOf faceX videoWidth, rawYOf faceY videoHeight,
   estimateZ (autoCalibratedBaseline st.baselineFaceWidth faceWidth) faceWidth
     st.calibratedDistance,
   currentTime⟩

/-- The history retained after the push and the eviction loop
(`cutoffTime = currentTime - SMOOTHING_WINDOW_MS`). -/
def retainedHistory (st : TrackingState)
    (faceX faceY faceWidth videoWidth videoHeight currentTime : ℚ) : List Sample :=
  evictOld (st.positionHistory ++ [newSample st faceX faceY faceWidth videoWidth videoHeight currentTime])
    (currentTime - SMOOTHING_WINDOW_MS)

/-- `updateHeadPosition(faceX, faceY, faceWidth, faceHeight)` (part_001):
auto-calibrate, push the new raw sample, evict samples older than the
200 ms window, then set `headPosition` to the recency-weighted average if
`totalWeight > 0`, else fall back to the raw values. -/
def updateHeadPosition (st : TrackingState)
    (faceX faceY faceWidth faceHeight videoWidth videoHeight currentTime : ℚ) :
    TrackingState :=
  let retained := retainedHistory st faceX faceY faceWidth videoWidth videoHeight currentTime
  let totalWeight := totalWeightOf retained currentTime
  { st with
    baselineFaceWidth := autoCalibratedBaseline st.baselineFaceWidth faceWidth
    positionHistory := retained
    headPosition :=
      if 0 < totalWeight then
        ⟨weightedSumOf Sample.x retained currentTime / totalWeight,
         weightedSumOf Sample.y retained currentTime / totalWeight,
         weightedSumOf Sample.z retained currentTime / totalWeight⟩
      else
        ⟨rawXOf faceX videoWidth, rawYOf faceY videoHeight,
         estimateZ (autoCalibratedBaseline st.baselineFaceWidth faceWidth) faceWidth
           st.calibratedDistance⟩ }

end Box

namespace Corridor

/-- `const SCREEN_WIDTH_CM = 143.9` (perspective-corridor / part_000). -/
def SCREEN_WIDTH_CM : ℚ := 1439 / 10

/-- `const SCREEN_HEIGHT_CM = 80.9`. -/
def SCREEN_HEIGHT_CM : ℚ := 809 / 10

/-- The frustum bounds computed inside `createPerspectiveCorrectedMatrix`
(perspective-corridor / part_000): `near` tied to a damped head distance and
the screen rectangle shifted by the damped head offset. -/
def frustumBounds (headX headY headZ : ℚ) : Frustum :=
  let dampedZ := 300 + (headZ - 300) * (1 / 2)
  let near := dampedZ
  let far := dampedZ + 1000
  let dampingFactor : ℚ := 1 / 2
  { left := -SCREEN_WIDTH_CM / 2 + headX * dampingFactor
    right := SCREEN_WIDTH_CM / 2 + headX * dampingFactor
    bottom := -SCREEN_HEIGHT_CM / 2 + headY * dampingFactor
    top := SCREEN_HEIGHT_CM / 2 + headY * dampingFactor
    near := near
    far := far }

/-- The left-eye position used by the first stereo pass in `render()`:
`renderEye(headPosition.x - EYE_SEPARATION/2, headPosition.y, headPosition.z)`. -/
def leftEyePosition (headPosition : Vec3) : Vec3 :=
  ⟨headPosition.x - EYE_SEPARATION / 2, headPosition.y, headPosition.z⟩

/-- The right-eye position used by the second stereo pass in `render()`:
`renderEye(headPosition.x + EYE_SEPARATION/2, headPosition.y, headPosition.z)`. -/
def rightEyePosition (headPosition : Vec3) : Vec3 :=
  ⟨headPosition.x + EYE_SEPARATION / 2, headPosition.y, headPosition.z⟩

/-- The `eyePass` uniform: `0` for the left-eye pass, `1` for the right. -/
inductive EyePass
  | left
  | right
deriving DecidableEq

/-- The GL calls issued by `render()` that affect framebuffer contents:
clears and per-eye draw passes. -/
inductive RenderCmd
  | clear
  | drawEye (pass : EyePass) (eye : Vec3)
deriving DecidableEq

/-- The command sequence of `render()`: an unconditional clear, then in
interlaced mode a second clear followed by the left-eye pass and — with no
clear in between — the right-eye pass; otherwise a single full pass. -/
def renderCommands (isInterlacedMode : Bool) (headPosition : Vec3) : List RenderCmd :=
  [RenderCmd.clear] ++
    (if isInterlacedMode then
      [RenderCmd.clear,
       RenderCmd.drawEye EyePass.left (leftEyePosition headPosition),
       RenderCmd.drawEye EyePass.right (rightEyePosition headPosition)]
    else
      [RenderCmd.drawEye EyePass.left headPosition])

/-- Row-level framebuffer content: the fragment shader tints left-eye
fragments blue and right-eye fragments red, so rows carry at most one of
those two tints over the cleared background. -/
inductive Pixel
  | background
  | leftBlue
  | rightRed
deriving DecidableEq

/-- The fragment shader's interlace test: the pass with `eyePass == 1`
survives on even rows (`mod(floor(gl_FragCoord.y), 2.0) < 0.5`) and the
pass with `eyePass == 0` survives on odd rows; all other fragments hit
`discard`. -/
def shaderWritesRow (pass : EyePass) (row : ℕ) : Bool :=
  match pass with
  | EyePass.right => decide (row % 2 = 0)
  | EyePass.left => decide (row % 2 = 1)

/-- Effect of one command on the framebuffer (rows indexed by `ℕ`):
a clear resets every row; a draw pass writes its tint on the rows where its
fragments survive and leaves the other rows untouched (`discard`). -/
def execCmd (fb : ℕ → Pixel) : RenderCmd → ℕ → Pixel
  | RenderCmd.clear => fun _ => Pixel.background
  | RenderCmd.drawEye pass _ => fun row =>
      if shaderWritesRow pass row then
        match pass with
        | EyePass.left => Pixel.leftBlue
        | EyePass.right => Pixel.rightRed
      else fb row

/-- Running a command list over an initial framebuffer, in order. -/
def execCmds (cmds : List RenderCmd) (fb : ℕ → Pixel) : ℕ → Pixel :=
  cmds.foldl execCmd fb

/-- The message surfaced by `calibrateDistance()`: either the success
`alert` or the rejection `alert` asking to start tracking first. -/
inductive CalibMessage
  | calibrated (distanceCm : ℚ)
  | needTracking
deriving DecidableEq

/-- The free-standing state read and written by `calibrateDistance()`:
the tracking flag, whether the `faceDetected` label currently reads "Yes",
the last detection's normalized bbox width (`null` when none), the overlay
canvas width, and the calibration state proper. -/
structure CalibState where
  isHeadTracking : Bool
  faceDetected : Bool
  lastDetectionBboxWidth : Option ℚ
  overlayCanvasWidth : ℚ
  baselineFaceWidth : ℚ
  calibratedDistance : ℚ
  headPosition : Vec3
deriving DecidableEq

/-- `calibrateDistance()` (perspective-corridor): only when tracking is on
and a face is detected does it consume the prompted distance
(`userDistance = none` models a cancelled or non-numeric prompt) and
overwrite `baselineFaceWidth`, `calibratedDistance` and `headPosition.z`;
otherwise it alerts and mutates nothing. -/
def calibrateDistance (st : CalibState) (userDistance : Option ℚ) :
    CalibState × Option CalibMessage :=
  if st.isHeadTracking && st.faceDetected then
    match userDistance with
    | some d =>
      match st.lastDetectionBboxWidth with
      | some bboxWidth =>
        let faceWidth := bboxWidth * st.overlayCanvasWidth
        ({ st with
            baselineFaceWidth := faceWidth
            calibratedDistance := d
            headPosition := { st.headPosition with z := d } },
         some (CalibMessage.calibrated d))
      | none => (st, none)
    | none => (st, none)
  else
    (st, some CalibMessage.needTracking)

end Corridor

/-- Samples surviving the front-eviction loop on a time-ordered history all
have timestamps at or after the cutoff. -/
theorem evictOld_ge_cutoff (l : List Sample) (c : ℚ)
    (hs : l.Pairwise (fun a b => a.timestamp ≤ b.timestamp)) :
    ∀ s ∈ evictOld l c, c ≤ s.timestamp := by
  induction l with
  | nil => simp [evictOld]
  | cons a l ih =>
    rcases List.pairwise_cons.mp hs with ⟨ha, hl⟩
    by_cases hac : a.timestamp < c
    · have hdrop : evictOld (a :: l) c = evictOld l c := by
        simp [evictOld, List.dropWhile_cons, hac]
      rw [hdrop]
      exact ih hl
    · have hkeep : evictOld (a :: l) c = a :: l := by
        simp [evictOld, List.dropWhile_cons, hac]
      rw [hkeep]
      intro s hsmem
      rcases List.mem_cons.mp hsmem with rfl | hsl
      · exact le_of_not_lt hac
      · exact le_trans (le_of_not_lt hac) (ha s hsl)

/-- A freshly pushed sample that is not older than the cutoff survives the
eviction loop, which only trims the front of the list. -/
theorem evictOld_append_fresh (l : List Sample) (a : Sample) (c : ℚ)
    (ha : ¬ a.timestamp < c) :
    evictOld (l ++ [a]) c = evictOld l c ++ [a] := by
  induction l with
  | nil => simp [evictOld, List.dropWhile_cons, ha]
  | cons x l ih =>
    by_cases hx : x.timestamp < c
    · simpa [evictOld, List.dropWhile_cons, hx] using ih
    · simp [evictOld, List.dropWhile_cons, hx]

/-- The loop weight `1 - age/SMOOTHING_WINDOW_MS` is nonnegative for any
sample no older than the 200 ms cutoff. -/
theorem sampleWeight_nonneg (currentTime : ℚ) (s : Sample)
    (h : currentTime - SMOOTHING_WINDOW_MS ≤ s.timestamp) :
    0 ≤ sampleWeight currentTime s := by
  have h200 : (0:ℚ) < SMOOTHING_WINDOW_MS := by norm_num [SMOOTHING_WINDOW_MS]
  rw [sampleWeight, sub_nonneg, div_le_one h200]
  linarith

/-- On samples with nonnegative loop weight, the spec's clamped weight
`max(0, 1 - age/WINDOW_MS)` coincides with the code's unclamped one. -/
theorem specRecencyWeight_eq (currentTime : ℚ) (s : Sample)
    (h : 0 ≤ sampleWeight currentTime s) :
    specRecencyWeight currentTime s = sampleWeight currentTime s :=
  max_eq_right h

/-- Sums of pointwise-equal maps agree. -/
theorem sum_map_congr (l : List Sample) (f g : Sample → ℚ) (h : ∀ s ∈ l, f s = g s) :
    (l.map f).sum = (l.map g).sum := by
  induction l with
  | nil => rfl
  | cons a l ih =>
    simp only [List.map_cons, List.sum_cons]
    rw [h a (List.mem_cons_self a l), ih (fun s hs => h s (List.mem_cons_of_mem a hs))]

/-- Bounding the weighted coordinate sum from above by a bound on the
coordinate, for nonnegative weights. -/
theorem weightedSum_le (l : List Sample) (currentTime B : ℚ) (f : Sample → ℚ)
    (hw : ∀ s ∈ l, 0 ≤ sampleWeight currentTime s) (hf : ∀ s ∈ l, f s ≤ B) :
    weightedSumOf f l currentTime ≤ B * totalWeightOf l currentTime := by
  induction l with
  | nil => simp [weightedSumOf, totalWeightOf]
  | cons a l ih =>
    simp only [weightedSumOf, totalWeightOf, List.map_cons, List.sum_cons] at ih ⊢
    have h1 : f a * sampleWeight currentTime a ≤ B * sampleWeight currentTime a :=
      mul_le_mul_of_nonneg_right (hf a (List.mem_cons_self a l))
        (hw a (List.mem_cons_self a l))
    have h2 := ih (fun s hs => hw s (List.mem_cons_of_mem a hs))
      (fun s hs => hf s (List.mem_cons_of_mem a hs))
    calc f a * sampleWeight currentTime a +
          (l.map (fun p => f p * sampleWeight currentTime p)).sum ≤
        B * sampleWeight currentTime a + B * (l.map (sampleWeight currentTime)).sum :=
          add_le_add h1 h2
      _ = B * (sampleWeight currentTime a + (l.map (sampleWeight currentTime)).sum) := by
          ring

/-- Bounding the weighted coordinate sum from below, for nonnegative
weights. -/
theorem weightedSum_ge (l : List Sample) (currentTime A : ℚ) (f : Sample → ℚ)
    (hw : ∀ s ∈ l, 0 ≤ sampleWeight currentTime s) (hf : ∀ s ∈ l, A ≤ f s) :
    A * totalWeightOf l currentTime ≤ weightedSumOf f l currentTime := by
  induction l with
  | nil => simp [weightedSumOf, totalWeightOf]
  | cons a l ih =>
    simp only [weightedSumOf, totalWeightOf, List.map_cons, List.sum_cons] at ih ⊢
    have h1 : A * sampleWeight currentTime a ≤ f a * sampleWeight currentTime a :=
      mul_le_mul_of_nonneg_right (hf a (List.mem_cons_self a l))
        (hw a (List.mem_cons_self a l))
    have h2 := ih (fun s hs => hw s (List.mem_cons_of_mem a hs))
      (fun s hs => hf s (List.mem_cons_of_mem a hs))
    calc A * (sampleWeight currentTime a + (l.map (sampleWeight currentTime)).sum) =
        A * sampleWeight currentTime a + A * (l.map (sampleWeight currentTime)).sum := by
          ring
      _ ≤ f a * sampleWeight currentTime a +
          (l.map (fun p => f p * sampleWeight currentTime p)).sum := add_le_add h1 h2

/-- C1: `createPerspectiveCorrectedMatrix` (part_001) computes the frustum
by similar triangles — `left = near*(-halfW - ex)/ez`, `right =
near*(halfW - ex)/ez`, `bottom = near*(-halfH - ey)/ez`, `top =
near*(halfH - ey)/ez` with `near = 0.1` — and consequently each screen
corner `(±halfW, ±halfH, 0)`, taken through the built view and projection
matrices and the perspective divide, lands on the matching normalized
device coordinate `(±1, ±1)` for every eye position with `ez > 0`. -/
theorem offaxis_corner_ndc (ex ey ez sx sy : ℚ) (hez : 0 < ez)
    (hsx : sx = 1 ∨ sx = -1) (hsy : sy = 1 ∨ sy = -1) :
    (Box.frustumBounds ex ey ez).left = 1 / 10 * (-(Box.SCREEN_WIDTH_CM / 2) - ex) / ez ∧
    (Box.frustumBounds ex ey ez).right = 1 / 10 * (Box.SCREEN_WIDTH_CM / 2 - ex) / ez ∧
    (Box.frustumBounds ex ey ez).bottom = 1 / 10 * (-(Box.SCREEN_HEIGHT_CM / 2) - ey) / ez ∧
    (Box.frustumBounds ex ey ez).top = 1 / 10 * (Box.SCREEN_HEIGHT_CM / 2 - ey) / ez ∧
    (Box.projectPoint ex ey ez (sx * (Box.SCREEN_WIDTH_CM / 2))
        (sy * (Box.SCREEN_HEIGHT_CM / 2)) 0).w ≠ 0 ∧
    (Box.projectPoint ex ey ez (sx * (Box.SCREEN_WIDTH_CM / 2))
          (sy * (Box.SCREEN_HEIGHT_CM / 2)) 0).x /
        (Box.projectPoint ex ey ez (sx * (Box.SCREEN_WIDTH_CM / 2))
          (sy * (Box.SCREEN_HEIGHT_CM / 2)) 0).w = sx ∧
    (Box.projectPoint ex ey ez (sx * (Box.SCREEN_WIDTH_CM / 2))
          (sy * (Box.SCREEN_HEIGHT_CM / 2)) 0).y /
        (Box.projectPoint ex ey ez (sx * (Box.SCREEN_WIDTH_CM / 2))
          (sy * (Box.SCREEN_HEIGHT_CM / 2)) 0).w = sy := by
  have hez0 : ez ≠ 0 := ne_of_gt hez
  have hw : (Box.projectPoint ex ey ez (sx * (Box.SCREEN_WIDTH_CM / 2))
      (sy * (Box.SCREEN_HEIGHT_CM / 2)) 0).w = ez := by
    simp [Box.projectPoint, Box.createPerspectiveCorrectedMatrix, Box.createPerspectiveMatrix,
      Box.frustumBounds, Box.renderEyeViewMatrix, applyMat4]
  have hx : (Box.projectPoint ex ey ez (sx * (Box.SCREEN_WIDTH_CM / 2))
      (sy * (Box.SCREEN_HEIGHT_CM / 2)) 0).x = sx * ez := by
    rcases hsx with rfl | rfl <;>
      · simp only [Box.projectPoint, Box.createPerspectiveCorrectedMatrix,
          Box.createPerspectiveMatrix, Box.frustumBounds, Box.renderEyeViewMatrix, applyMat4,
          Box.SCREEN_WIDTH_CM, Box.SCREEN_HEIGHT_CM]
        field_simp
        ring
  have hy : (Box.projectPoint ex ey ez (sx * (Box.SCREEN_WIDTH_CM / 2))
      (sy * (Box.SCREEN_HEIGHT_CM / 2)) 0).y = sy * ez := by
    rcases hsy with rfl | rfl <;>
      · simp only [Box.projectPoint, Box.createPerspectiveCorrectedMatrix,
          Box.createPerspectiveMatrix, Box.frustumBounds, Box.renderEyeViewMatrix, applyMat4,
          Box.SCREEN_WIDTH_CM, Box.SCREEN_HEIGHT_CM]
        field_simp
        ring
  refine ⟨rfl, rfl, rfl, rfl, ?_, ?_, ?_⟩
  · rw [hw]; exact hez0
  · rw [hx, hw, mul_div_assoc, div_self hez0, mul_one]
  · rw [hy, hw, mul_div_assoc, div_self hez0, mul_one]

/-- Witness for C1 at eye position `(3, -2, 40)` and the corner with
`sx = 1`, `sy = -1`. -/
theorem offaxis_corner_ndc_witness :
    (0:ℚ) < 40 ∧ ((1:ℚ) = 1 ∨ (1:ℚ) = -1) ∧ ((-1:ℚ) = 1 ∨ (-1:ℚ) = -1) ∧
    (Box.projectPoint 3 (-2) 40 (1 * (Box.SCREEN_WIDTH_CM / 2))
          ((-1) * (Box.SCREEN_HEIGHT_CM / 2)) 0).x /
        (Box.projectPoint 3 (-2) 40 (1 * (Box.SCREEN_WIDTH_CM / 2))
          ((-1) * (Box.SCREEN_HEIGHT_CM / 2)) 0).w = 1 ∧
    (Box.projectPoint 3 (-2) 40 (1 * (Box.SCREEN_WIDTH_CM / 2))
          ((-1) * (Box.SCREEN_HEIGHT_CM / 2)) 0).y /
        (Box.projectPoint 3 (-2) 40 (1 * (Box.SCREEN_WIDTH_CM / 2))
          ((-1) * (Box.SCREEN_HEIGHT_CM / 2)) 0).w = -1 :=
  ⟨by norm_num, Or.inl rfl, Or.inr rfl,
   (offaxis_corner_ndc 3 (-2) 40 1 (-1) (by norm_num) (Or.inl rfl)
       (Or.inr rfl)).2.2.2.2.2.1,
   (offaxis_corner_ndc 3 (-2) 40 1 (-1) (by norm_num) (Or.inl rfl)
       (Or.inr rfl)).2.2.2.2.2.2⟩

/-- C2: the code contains no clamp on the eye distance before the division —
evaluating `createPerspectiveCorrectedMatrix`'s bounds at the negative eye
distance `headZ = -40` produces an inverted frustum (`right < left`) instead
of the clamped, well-ordered bounds the claim requires. -/
theorem frustum_unclamped_negative_ez :
    (Box.frustumBounds 0 0 (-40)).right < (Box.frustumBounds 0 0 (-40)).left := by
  norm_num [Box.frustumBounds, Box.SCREEN_WIDTH_CM, Box.SCREEN_HEIGHT_CM]

/-- C3: for any processed detection over a time-ordered history, the
smoothed head position equals the weight-normalized average of the retained
samples' x, y, z with each sample weighted by
`max(0, 1 - (now - timestamp)/SMOOTHING_WINDOW_MS)` — the spec's linear
recency decay — and the normalizing total weight is strictly positive. -/
theorem smoothing_weighted_average (st : TrackingState)
    (faceX faceY faceWidth faceHeight videoWidth videoHeight currentTime : ℚ)
    (hsorted : st.positionHistory.Pairwise (fun a b => a.timestamp ≤ b.timestamp))
    (hpast : ∀ s ∈ st.positionHistory, s.timestamp ≤ currentTime) :
    0 < ((Box.updateHeadPosition st faceX faceY faceWidth faceHeight videoWidth videoHeight
          currentTime).positionHistory.map (specRecencyWeight currentTime)).sum ∧
    (Box.updateHeadPosition st faceX faceY faceWidth faceHeight videoWidth videoHeight
        currentTime).headPosition =
      ⟨((Box.updateHeadPosition st faceX faceY faceWidth faceHeight videoWidth videoHeight
            currentTime).positionHistory.map
          (fun p => p.x * specRecencyWeight currentTime p)).sum /
        ((Box.updateHeadPosition st faceX faceY faceWidth faceHeight videoWidth videoHeight
            currentTime).positionHistory.map (specRecencyWeight currentTime)).sum,
       ((Box.updateHeadPosition st faceX faceY faceWidth faceHeight videoWidth videoHeight
            currentTime).positionHistory.map
          (fun p => p.y * specRecencyWeight currentTime p)).sum /
        ((Box.updateHeadPosition st faceX faceY faceWidth faceHeight videoWidth videoHeight
            currentTime).positionHistory.map (specRecencyWeight currentTime)).sum,
       ((Box.updateHeadPosition st faceX faceY faceWidth faceHeight videoWidth videoHeight
            currentTime).positionHistory.map
          (fun p => p.z * specRecencyWeight currentTime p)).sum /
        ((Box.updateHeadPosition st faceX faceY faceWidth faceHeight videoWidth videoHeight
            currentTime).positionHistory.map (specRecencyWeight currentTime)).sum⟩ := by
  have hhist : (Box.updateHeadPosition st faceX faceY faceWidth faceHeight videoWidth
      videoHeight currentTime).positionHistory =
      Box.retainedHistory st faceX faceY faceWidth videoWidth videoHeight currentTime := rfl
  set R := Box.retainedHistory st faceX faceY faceWidth videoWidth videoHeight currentTime
    with hRdef
  set f := Box.newSample st faceX faceY faceWidth videoWidth videoHeight currentTime
    with hfdef
  have hfts : f.timestamp = currentTime := rfl
  have hfnot : ¬ f.timestamp < currentTime - SMOOTHING_WINDOW_MS := by
    rw [hfts, SMOOTHING_WINDOW_MS]
    intro hcontra
    linarith
  have hsplit : R = evictOld st.positionHistory (currentTime - SMOOTHING_WINDOW_MS) ++ [f] := by
    rw [hRdef, Box.retainedHistory]
    exact evictOld_append_fresh st.positionHistory f (currentTime - SMOOTHING_WINDOW_MS) hfnot
  have hpw : (st.positionHistory ++ [f]).Pairwise (fun a b => a.timestamp ≤ b.timestamp) := by
    rw [List.pairwise_append]
    refine ⟨hsorted, List.pairwise_singleton _ _, ?_⟩
    intro a ha b hb
    rcases List.mem_singleton.mp hb with rfl
    rw [hfts]
    exact hpast a ha
  have hcut : ∀ s ∈ R, currentTime - SMOOTHING_WINDOW_MS ≤ s.timestamp := by
    rw [hRdef, Box.retainedHistory]
    exact evictOld_ge_cutoff _ _ hpw
  have hwnn : ∀ s ∈ R, 0 ≤ sampleWeight currentTime s :=
    fun s hs => sampleWeight_nonneg currentTime s (hcut s hs)
  have hw1 : sampleWeight currentTime f = 1 := by
    rw [sampleWeight, hfts]
    norm_num [SMOOTHING_WINDOW_MS]
  have hwnn0 : ∀ s ∈ evictOld st.positionHistory (currentTime - SMOOTHING_WINDOW_MS),
      0 ≤ sampleWeight currentTime s := by
    intro s hs
    exact sampleWeight_nonneg currentTime s (evictOld_ge_cutoff _ _ hsorted s hs)
  have htwsplit : totalWeightOf R currentTime =
      totalWeightOf (evictOld st.positionHistory (currentTime - SMOOTHING_WINDOW_MS))
        currentTime + sampleWeight currentTime f := by
    rw [hsplit, totalWeightOf, totalWeightOf, List.map_append, List.sum_append]
    simp
  have htail0 : 0 ≤ totalWeightOf
      (evictOld st.positionHistory (currentTime - SMOOTHING_WINDOW_MS)) currentTime := by
    apply List.sum_nonneg
    intro q hq
    rcases List.mem_map.mp hq with ⟨s, hsmem, rfl⟩
    exact hwnn0 s hsmem
  have htw : 0 < totalWeightOf R currentTime := by
    rw [htwsplit, hw1]
    linarith
  have hhead : (Box.updateHeadPosition st faceX faceY faceWidth faceHeight videoWidth
      videoHeight currentTime).headPosition =
      ⟨weightedSumOf Sample.x R currentTime / totalWeightOf R currentTime,
       weightedSumOf Sample.y R currentTime / totalWeightOf R currentTime,
       weightedSumOf Sample.z R currentTime / totalWeightOf R currentTime⟩ := by
    show (if 0 < totalWeightOf R currentTime then _ else _) = _
    rw [if_pos htw]
  have hsum_w : (R.map (specRecencyWeight currentTime)).sum =
      totalWeightOf R currentTime :=
    sum_map_congr R _ _ (fun s hs => specRecencyWeight_eq currentTime s (hwnn s hs))
  have hsum_c : ∀ g : Sample → ℚ,
      (R.map (fun p => g p * specRecencyWeight currentTime p)).sum =
        weightedSumOf g R currentTime := by
    intro g
    exact sum_map_congr R _ _
      (fun s hs => by rw [specRecencyWeight_eq currentTime s (hwnn s hs)])
  constructor
  · rw [hhist, hsum_w]
    exact htw
  · rw [hhist, hhead, hsum_w, hsum_c Sample.x, hsum_c Sample.y, hsum_c Sample.z]

/-- Witness for C3: a single prior sample at t = 1000 queried at t = 1100 —
the hypotheses hold and the smoothed position is the recency-weighted
average of the two retained samples. -/
theorem smoothing_weighted_average_witness :
    ([⟨1, 2, 30, 1000⟩] : List Sample).Pairwise (fun a b => a.timestamp ≤ b.timestamp) ∧
    (∀ s ∈ ([⟨1, 2, 30, 1000⟩] : List Sample), s.timestamp ≤ (1100:ℚ)) ∧
    0 < ((Box.updateHeadPosition ⟨100, 40, [⟨1, 2, 30, 1000⟩], ⟨1, 2, 30⟩⟩ 320 240 100 100
          640 480 1100).positionHistory.map (specRecencyWeight 1100)).sum :=
  ⟨List.pairwise_singleton _ _,
   by
     intro s hs
     rcases List.mem_singleton.mp hs with rfl
     norm_num,
   (smoothing_weighted_average ⟨100, 40, [⟨1, 2, 30, 1000⟩], ⟨1, 2, 30⟩⟩ 320 240 100 100
       640 480 1100 (List.pairwise_singleton _ _)
       (by
         intro s hs
         rcases List.mem_singleton.mp hs with rfl
         norm_num)).1⟩

/-- C4: on a time-ordered history the front-eviction loop removes exactly
the samples with `timestamp < cutoff`; and in the concrete scenario —
sample at t=0 with x-position 0, sample at t=250 with x-position 10, no
sample in between — the smoothed estimate after the t=250 update is exactly
10 and the t=0 sample is gone from the retained history, so a query at
t=260 reads 10, not an average of the two. -/
theorem eviction_trims_old_samples :
    (∀ (l : List Sample) (c : ℚ),
        l.Pairwise (fun a b => a.timestamp ≤ b.timestamp) →
        evictOld l c = l.filter (fun s => decide (c ≤ s.timestamp))) ∧
    (Box.updateHeadPosition
        (Box.updateHeadPosition ⟨0, 40, [], ⟨0, 0, 40⟩⟩ 320 240 100 100 640 480 0)
        (320 - 64000 / 309) 240 100 100 640 480 250).headPosition.x = 10 ∧
    (Box.updateHeadPosition
        (Box.updateHeadPosition ⟨0, 40, [], ⟨0, 0, 40⟩⟩ 320 240 100 100 640 480 0)
        (320 - 64000 / 309) 240 100 100 640 480 250).positionHistory.map
      Sample.timestamp = [250] := by
  refine ⟨?_, ?_, ?_⟩
  · intro l c hs
    induction l with
    | nil => simp [evictOld]
    | cons a l ih =>
      rcases List.pairwise_cons.mp hs with ⟨ha, hl⟩
      by_cases hac : a.timestamp < c
      · have hnot : ¬ c ≤ a.timestamp := not_le.mpr hac
        rw [show evictOld (a :: l) c = evictOld l c by
              simp [evictOld, List.dropWhile_cons, hac],
            List.filter_cons, if_neg (by simpa using hnot)]
        exact ih hl
      · have hyes : c ≤ a.timestamp := le_of_not_lt hac
        have hfilter : List.filter (fun s => decide (c ≤ s.timestamp)) (a :: l) = a :: l := by
          rw [List.filter_eq_self]
          intro b hb
          rcases List.mem_cons.mp hb with rfl | hbl
          · exact decide_eq_true hyes
          · exact decide_eq_true (le_trans hyes (ha b hbl))
        rw [hfilter]
        simp [evictOld, List.dropWhile_cons, hac]
  · norm_num [Box.updateHeadPosition, Box.retainedHistory, Box.newSample, Box.rawXOf,
      Box.rawYOf, Box.autoCalibratedBaseline, Box.SCREEN_WIDTH_CM, Box.SCREEN_HEIGHT_CM,
      Box.CAMERA_OFFSET_X, Box.CAMERA_OFFSET_Y, estimateZ, evictOld, SMOOTHING_WINDOW_MS,
      totalWeightOf, weightedSumOf, sampleWeight, List.dropWhile_cons]
  · norm_num [Box.updateHeadPosition, Box.retainedHistory, Box.newSample, Box.rawXOf,
      Box.rawYOf, Box.autoCalibratedBaseline, Box.SCREEN_WIDTH_CM, Box.SCREEN_HEIGHT_CM,
      Box.CAMERA_OFFSET_X, Box.CAMERA_OFFSET_Y, estimateZ, evictOld, SMOOTHING_WINDOW_MS,
      totalWeightOf, weightedSumOf, sampleWeight, List.dropWhile_cons]

/-- Witness for C4: the sorted two-sample history at t = 0 and t = 250 with
cutoff 60 — eviction keeps exactly the sample with timestamp ≥ 60. -/
theorem eviction_trims_old_samples_witness :
    ([⟨0, 0, 40, 0⟩, ⟨10, 0, 40, 250⟩] : List Sample).Pairwise
        (fun a b => a.timestamp ≤ b.timestamp) ∧
    evictOld [⟨0, 0, 40, 0⟩, ⟨10, 0, 40, 250⟩] 60 =
      ([⟨0, 0, 40, 0⟩, ⟨10, 0, 40, 250⟩] : List Sample).filter
        (fun s => decide ((60:ℚ) ≤ s.timestamp)) :=
  ⟨by norm_num [List.pairwise_cons],
   eviction_trims_old_samples.1 [⟨0, 0, 40, 0⟩, ⟨10, 0, 40, 250⟩] 60
     (by norm_num [List.pairwise_cons])⟩

/-- C5: the estimator depth `z = (baselineFaceWidthPx / faceWidth) *
calibratedDistanceCm` is strictly decreasing in `faceWidth` on positive
widths for any positive baseline and calibrated distance, and with baseline
100 px at 40 cm it maps 50 px to 80 cm and 200 px to 20 cm. -/
theorem depth_estimate_antitone :
    (∀ b c f1 f2 : ℚ, 0 < b → 0 < c → 0 < f1 → f1 < f2 →
        estimateZ b f2 c < estimateZ b f1 c) ∧
    estimateZ 100 50 40 = 80 ∧ estimateZ 100 200 40 = 20 := by
  refine ⟨?_, by norm_num [estimateZ], by norm_num [estimateZ]⟩
  intro b c f1 f2 hb hc hf1 hff
  exact mul_lt_mul_of_pos_right (div_lt_div_of_pos_left hb hf1 hff) hc

/-- Witness for C5 at baseline 100 px, calibrated distance 40 cm,
face widths 50 px and 200 px. -/
theorem depth_estimate_antitone_witness :
    (0:ℚ) < 100 ∧ (0:ℚ) < 40 ∧ (0:ℚ) < 50 ∧ (50:ℚ) < 200 ∧
      estimateZ 100 200 40 < estimateZ 100 50 40 :=
  ⟨by norm_num, by norm_num, by norm_num, by norm_num,
   depth_estimate_antitone.1 100 40 50 200 (by norm_num) (by norm_num) (by norm_num)
     (by norm_num)⟩

/-- C6: with a calibrated baseline of 100 px, invoking `updateHeadPosition`
with `faceWidth = 0` still pushes a sample into `positionHistory` — the
detection is not treated as unusable and skipped.  (In JS arithmetic the
pushed depth `(100/0)*40` is `Infinity`; the rational model's
division-by-zero convention renders it as `0`, which already exhibits the
missing skip.) -/
theorem zero_faceWidth_sample_pushed :
    (Box.updateHeadPosition ⟨100, 40, [], ⟨0, 0, 40⟩⟩ 320 240 0 100 640 480 1000).positionHistory =
      [⟨0, 87 / 10, 0, 1000⟩] := by
  norm_num [Box.updateHeadPosition, Box.retainedHistory, Box.newSample, Box.rawXOf,
    Box.rawYOf, Box.autoCalibratedBaseline, Box.SCREEN_WIDTH_CM, Box.SCREEN_HEIGHT_CM,
    Box.CAMERA_OFFSET_X, Box.CAMERA_OFFSET_Y, estimateZ, evictOld, SMOOTHING_WINDOW_MS,
    List.dropWhile]

/-- C7: when head tracking is off or no face detection is active,
`calibrateDistance()` returns the state unchanged and surfaces the
rejection alert, for every prompted distance. -/
theorem calibrate_rejected_without_tracking (st : Corridor.CalibState)
    (userDistance : Option ℚ)
    (h : st.isHeadTracking = false ∨ st.faceDetected = false) :
    Corridor.calibrateDistance st userDistance =
      (st, some Corridor.CalibMessage.needTracking) := by
  rcases h with h | h <;> simp [Corridor.calibrateDistance, h]

/-- Witness for C7: tracking off, face detected, a prompted distance of
250 cm — the call is rejected with the alert and no mutation. -/
theorem calibrate_rejected_without_tracking_witness :
    ((⟨false, true, some (1/2), 640, 50, 300, ⟨0, 0, 300⟩⟩ :
        Corridor.CalibState).isHeadTracking = false ∨
      (⟨false, true, some (1/2), 640, 50, 300, ⟨0, 0, 300⟩⟩ :
        Corridor.CalibState).faceDetected = false) ∧
    Corridor.calibrateDistance ⟨false, true, some (1/2), 640, 50, 300, ⟨0, 0, 300⟩⟩
        (some 250) =
      (⟨false, true, some (1/2), 640, 50, 300, ⟨0, 0, 300⟩⟩,
       some Corridor.CalibMessage.needTracking) :=
  ⟨Or.inl rfl,
   calibrate_rejected_without_tracking ⟨false, true, some (1/2), 640, 50, 300, ⟨0, 0, 300⟩⟩
     (some 250) (Or.inl rfl)⟩

/-- C8: the stereo passes place the eyes at the head position offset by
∓½·6.5 cm along the screen's horizontal axis (same y and z), and for a
laterally centered head the two frustums are mirror images about the
vertical centerline: `right.left = -left.right`, `right.right = -left.left`,
with identical bottom and top. -/
theorem stereo_eyes_mirror (head : Vec3) (hcentered : head.x = 0) :
    Corridor.leftEyePosition head = ⟨head.x - EYE_SEPARATION / 2, head.y, head.z⟩ ∧
    Corridor.rightEyePosition head = ⟨head.x + EYE_SEPARATION / 2, head.y, head.z⟩ ∧
    EYE_SEPARATION = 13 / 2 ∧
    (Corridor.frustumBounds (Corridor.rightEyePosition head).x
        (Corridor.rightEyePosition head).y (Corridor.rightEyePosition head).z).left =
      -(Corridor.frustumBounds (Corridor.leftEyePosition head).x
        (Corridor.leftEyePosition head).y (Corridor.leftEyePosition head).z).right ∧
    (Corridor.frustumBounds (Corridor.rightEyePosition head).x
        (Corridor.rightEyePosition head).y (Corridor.rightEyePosition head).z).right =
      -(Corridor.frustumBounds (Corridor.leftEyePosition head).x
        (Corridor.leftEyePosition head).y (Corridor.leftEyePosition head).z).left ∧
    (Corridor.frustumBounds (Corridor.rightEyePosition head).x
        (Corridor.rightEyePosition head).y (Corridor.rightEyePosition head).z).bottom =
      (Corridor.frustumBounds (Corridor.leftEyePosition head).x
        (Corridor.leftEyePosition head).y (Corridor.leftEyePosition head).z).bottom ∧
    (Corridor.frustumBounds (Corridor.rightEyePosition head).x
        (Corridor.rightEyePosition head).y (Corridor.rightEyePosition head).z).top =
      (Corridor.frustumBounds (Corridor.leftEyePosition head).x
        (Corridor.leftEyePosition head).y (Corridor.leftEyePosition head).z).top := by
  refine ⟨rfl, rfl, rfl, ?_, ?_, rfl, rfl⟩ <;>
    simp [Corridor.frustumBounds, Corridor.leftEyePosition, Corridor.rightEyePosition,
      hcentered] <;> ring

/-- Witness for C8 at the centered head position `(0, 5, 300)`. -/
theorem stereo_eyes_mirror_witness :
    (Vec3.mk 0 5 300).x = 0 ∧
    (Corridor.frustumBounds (Corridor.rightEyePosition ⟨0, 5, 300⟩).x
        (Corridor.rightEyePosition ⟨0, 5, 300⟩).y
        (Corridor.rightEyePosition ⟨0, 5, 300⟩).z).left =
      -(Corridor.frustumBounds (Corridor.leftEyePosition ⟨0, 5, 300⟩).x
        (Corridor.leftEyePosition ⟨0, 5, 300⟩).y
        (Corridor.leftEyePosition ⟨0, 5, 300⟩).z).right ∧
    (Corridor.frustumBounds (Corridor.rightEyePosition ⟨0, 5, 300⟩).x
        (Corridor.rightEyePosition ⟨0, 5, 300⟩).y
        (Corridor.rightEyePosition ⟨0, 5, 300⟩).z).right =
      -(Corridor.frustumBounds (Corridor.leftEyePosition ⟨0, 5, 300⟩).x
        (Corridor.leftEyePosition ⟨0, 5, 300⟩).y
        (Corridor.leftEyePosition ⟨0, 5, 300⟩).z).left :=
  ⟨rfl, (stereo_eyes_mirror ⟨0, 5, 300⟩ rfl).2.2.2.1,
   (stereo_eyes_mirror ⟨0, 5, 300⟩ rfl).2.2.2.2.1⟩

/-- C9: in interlaced mode `render()` issues the left-eye pass strictly
before the right-eye pass with no clear between them, and running the
passes over a cleared framebuffer leaves left-eye content on every odd row
and right-eye content on every even row — both passes survive in the final
frame. -/
theorem interlaced_passes_coexist (head : Vec3) (row : ℕ) :
    Corridor.renderCommands true head =
      [Corridor.RenderCmd.clear, Corridor.RenderCmd.clear,
       Corridor.RenderCmd.drawEye Corridor.EyePass.left (Corridor.leftEyePosition head),
       Corridor.RenderCmd.drawEye Corridor.EyePass.right (Corridor.rightEyePosition head)] ∧
    Corridor.execCmds (Corridor.renderCommands true head)
        (fun _ => Corridor.Pixel.background) row =
      if row % 2 = 0 then Corridor.Pixel.rightRed else Corridor.Pixel.leftBlue := by
  constructor
  · rfl
  · rcases Nat.mod_two_eq_zero_or_one row with h | h <;>
      simp [Corridor.execCmds, Corridor.execCmd, Corridor.renderCommands,
        Corridor.shaderWritesRow, h]

/-- C10: after any processed detection over a time-ordered history, each
coordinate of the smoothed head position lies between any lower and upper
bound on that coordinate over the retained samples (in particular between
their minimum and maximum) — the convex-combination branch and the
raw-sample fallback can never overshoot the raw data. -/
theorem smoothed_position_within_bounds (st : TrackingState)
    (faceX faceY faceWidth faceHeight videoWidth videoHeight currentTime A B : ℚ)
    (hsorted : st.positionHistory.Pairwise (fun a b => a.timestamp ≤ b.timestamp))
    (hpast : ∀ s ∈ st.positionHistory, s.timestamp ≤ currentTime) :
    ((∀ s ∈ (Box.updateHeadPosition st faceX faceY faceWidth faceHeight videoWidth
          videoHeight currentTime).positionHistory, A ≤ s.x ∧ s.x ≤ B) →
      A ≤ (Box.updateHeadPosition st faceX faceY faceWidth faceHeight videoWidth
          videoHeight currentTime).headPosition.x ∧
        (Box.updateHeadPosition st faceX faceY faceWidth faceHeight videoWidth
          videoHeight currentTime).headPosition.x ≤ B) ∧
    ((∀ s ∈ (Box.updateHeadPosition st faceX faceY faceWidth faceHeight videoWidth
          videoHeight currentTime).positionHistory, A ≤ s.y ∧ s.y ≤ B) →
      A ≤ (Box.updateHeadPosition st faceX faceY faceWidth faceHeight videoWidth
          videoHeight currentTime).headPosition.y ∧
        (Box.updateHeadPosition st faceX faceY faceWidth faceHeight videoWidth
          videoHeight currentTime).headPosition.y ≤ B) ∧
    ((∀ s ∈ (Box.updateHeadPosition st faceX faceY faceWidth faceHeight videoWidth
          videoHeight currentTime).positionHistory, A ≤ s.z ∧ s.z ≤ B) →
      A ≤ (Box.updateHeadPosition st faceX faceY faceWidth faceHeight videoWidth
          videoHeight currentTime).headPosition.z ∧
        (Box.updateHeadPosition st faceX faceY faceWidth faceHeight videoWidth
          videoHeight currentTime).headPosition.z ≤ B) := by
  have hhist : (Box.updateHeadPosition st faceX faceY faceWidth faceHeight videoWidth
      videoHeight currentTime).positionHistory =
      Box.retainedHistory st faceX faceY faceWidth videoWidth videoHeight currentTime := rfl
  set R := Box.retainedHistory st faceX faceY faceWidth videoWidth videoHeight currentTime
    with hRdef
  set f := Box.newSample st faceX faceY faceWidth videoWidth videoHeight currentTime
    with hfdef
  have hfts : f.timestamp = currentTime := rfl
  have hfnot : ¬ f.timestamp < currentTime - SMOOTHING_WINDOW_MS := by
    rw [hfts, SMOOTHING_WINDOW_MS]
    intro hcontra
    linarith
  have hsplit : R = evictOld st.positionHistory (currentTime - SMOOTHING_WINDOW_MS) ++ [f] := by
    rw [hRdef, Box.retainedHistory]
    exact evictOld_append_fresh st.positionHistory f (currentTime - SMOOTHING_WINDOW_MS) hfnot
  have hpw : (st.positionHistory ++ [f]).Pairwise (fun a b => a.timestamp ≤ b.timestamp) := by
    rw [List.pairwise_append]
    refine ⟨hsorted, List.pairwise_singleton _ _, ?_⟩
    intro a ha b hb
    rcases List.mem_singleton.mp hb with rfl
    rw [hfts]
    exact hpast a ha
  have hcut : ∀ s ∈ R, currentTime - SMOOTHING_WINDOW_MS ≤ s.timestamp := by
    rw [hRdef, Box.retainedHistory]
    exact evictOld_ge_cutoff _ _ hpw
  have hwnn : ∀ s ∈ R, 0 ≤ sampleWeight currentTime s :=
    fun s hs => sampleWeight_nonneg currentTime s (hcut s hs)
  by_cases htw : 0 < totalWeightOf R currentTime
  · have hhead : (Box.updateHeadPosition st faceX faceY faceWidth faceHeight videoWidth
        videoHeight currentTime).headPosition =
        ⟨weightedSumOf Sample.x R currentTime / totalWeightOf R currentTime,
         weightedSumOf Sample.y R currentTime / totalWeightOf R currentTime,
         weightedSumOf Sample.z R currentTime / totalWeightOf R currentTime⟩ := by
      show (if 0 < totalWeightOf R currentTime then _ else _) = _
      rw [if_pos htw]
    have main : ∀ g : Sample → ℚ, (∀ s ∈ R, A ≤ g s ∧ g s ≤ B) →
        A ≤ weightedSumOf g R currentTime / totalWeightOf R currentTime ∧
          weightedSumOf g R currentTime / totalWeightOf R currentTime ≤ B := by
      intro g hb
      constructor
      · rw [le_div_iff₀ htw]
        exact weightedSum_ge R currentTime A g hwnn (fun s hs => (hb s hs).1)
      · rw [div_le_iff₀ htw]
        exact weightedSum_le R currentTime B g hwnn (fun s hs => (hb s hs).2)
    refine ⟨?_, ?_, ?_⟩ <;> intro hb <;> rw [hhist] at hb <;> rw [hhead]
    · exact main Sample.x hb
    · exact main Sample.y hb
    · exact main Sample.z hb
  · have hhead : (Box.updateHeadPosition st faceX faceY faceWidth faceHeight videoWidth
        videoHeight currentTime).headPosition =
        ⟨Box.rawXOf faceX videoWidth, Box.rawYOf faceY videoHeight,
         estimateZ (Box.autoCalibratedBaseline st.baselineFaceWidth faceWidth) faceWidth
           st.calibratedDistance⟩ := by
      show (if 0 < totalWeightOf R currentTime then _ else _) = _
      rw [if_neg htw]
    have hfmem : f ∈ R := by
      rw [hsplit]
      exact List.mem_append_right _ (List.mem_singleton.mpr rfl)
    refine ⟨?_, ?_, ?_⟩ <;> intro hb <;> rw [hhist] at hb <;> rw [hhead]
    · exact (hb f hfmem)
    · exact (hb f hfmem)
    · exact (hb f hfmem)

/-- Witness for C10: a one-sample history at t = 1000 updated at t = 1100,
with bounds that hold on the retained samples and therefore on the
smoothed x coordinate. -/
theorem smoothed_position_within_bounds_witness :
    ([⟨1, 2, 30, 1000⟩] : List Sample).Pairwise (fun a b => a.timestamp ≤ b.timestamp) ∧
    (∀ s ∈ ([⟨1, 2, 30, 1000⟩] : List Sample), s.timestamp ≤ (1100:ℚ)) ∧
    ((∀ s ∈ (Box.updateHeadPosition ⟨100, 40, [⟨1, 2, 30, 1000⟩], ⟨1, 2, 30⟩⟩ 320 240 100 100
          640 480 1100).positionHistory, (0:ℚ) ≤ s.x ∧ s.x ≤ 20) →
      (0:ℚ) ≤ (Box.updateHeadPosition ⟨100, 40, [⟨1, 2, 30, 1000⟩], ⟨1, 2, 30⟩⟩ 320 240 100 100
          640 480 1100).headPosition.x ∧
        (Box.updateHeadPosition ⟨100, 40, [⟨1, 2, 30, 1000⟩], ⟨1, 2, 30⟩⟩ 320 240 100 100
          640 480 1100).headPosition.x ≤ 20) :=
  ⟨List.pairwise_singleton _ _,
   by
     intro s hs
     rcases List.mem_singleton.mp hs with rfl
     norm_num,
   (smoothed_position_within_bounds ⟨100, 40, [⟨1, 2, 30, 1000⟩], ⟨1, 2, 30⟩⟩ 320 240 100 100
       640 480 1100 0 20 (List.pairwise_singleton _ _)
       (by
         intro s hs
         rcases List.mem_singleton.mp hs with rfl
         norm_num)).1⟩

end Window
